import Mathlib

/-!
Shallow embedding of the `test-temp-file` crate (src/src/lib.rs).

The crate provides `TestTempFile`: a scoped temporary file for tests.
Construction (`new` / `gen_random_name`) draws a random `i32` in
`[0, i32::max_value())`, builds the on-disk name `format!("_{}_{}", r, name)`,
and opens it with `OpenOptions::new().create(true).write(true).read(true)`.
Read/Write/Seek are pass-throughs to the underlying `std::fs::File`.
`Drop` calls `delete_file`, which checks `Path::exists` and then calls
`std::fs::remove_file`, discarding its result.

The OS layer is modelled explicitly: the filesystem is an association list
from path to byte contents, an open handle is its contents plus a cursor,
and each fallible OS call takes an oracle describing whether (and how) the
OS fails, so that error-path behaviour of the crate is provable.
-/

namespace TestTempFileLib

/-- A byte, as stored in a file (values are below 256 in practice). -/
abbrev Byte := Nat

/-- An OS-level I/O error payload (the crate never inspects it, only
forwards or discards it). -/
structure IOError where
  code : Nat
deriving DecidableEq, Repr

/-- The filesystem: an association list from path to file contents. -/
abbrev FS := List (String × List Byte)

/-- Look a path up on the filesystem. -/
def FS.lookup : FS → String → Option (List Byte)
  | [], _ => none
  | (k, v) :: rest, name => if k = name then some v else FS.lookup rest name

/-- Model of `Path::new(name).exists()`. -/
def FS.pathExists (fs : FS) (name : String) : Bool :=
  (FS.lookup fs name).isSome

/-- Create a file with the given contents. -/
def FS.insert (fs : FS) (name : String) (c : List Byte) : FS :=
  (name, c) :: fs

/-- Remove every entry at the given path. -/
def FS.removeEntry : FS → String → FS
  | [], _ => []
  | (k, v) :: rest, name =>
    if k = name then FS.removeEntry rest name
    else (k, v) :: FS.removeEntry rest name

/-- An open file handle: the file's bytes and the cursor position. -/
structure OsFile where
  contents : List Byte
  pos : Nat
deriving DecidableEq, Repr

/-- The contents of a file truncated or zero-extended to length `pos`
(POSIX zero-fills the gap when writing past end of file). -/
def padTo (c : List Byte) (pos : Nat) : List Byte :=
  c.take pos ++ List.replicate (pos - c.length) 0

/-- Contents after `buf` is written over `c` starting at offset `pos`. -/
def writeBytesAt (c : List Byte) (pos : Nat) (buf : List Byte) : List Byte :=
  padTo c pos ++ buf ++ c.drop (pos + buf.length)

/-- Effect of one successful OS write of `buf` on a handle: the bytes land
at the cursor and the cursor advances past them. -/
def OsFile.writeChunk (f : OsFile) (buf : List Byte) : OsFile :=
  { contents := writeBytesAt f.contents f.pos buf, pos := f.pos + buf.length }

/-- Outcome chosen by the OS for one low-level `write` call. -/
inductive WriteStep
  | wrote (k : Nat)
  | failed (e : IOError)
deriving DecidableEq, Repr

/-- Whether a step is a (possibly short) write of at least one byte. -/
def WriteStep.isPositiveWrite : WriteStep → Bool
  | WriteStep.wrote k => decide (1 ≤ k)
  | WriteStep.failed _ => false

/-- Model of a single `File::write(buf)` call: the OS either fails or
writes some prefix of `buf` (at most `buf.length` bytes), returning the
count actually written. -/
def OsFile.writeStep (f : OsFile) (buf : List Byte) (o : WriteStep) :
    Except IOError (Nat × OsFile) :=
  match o with
  | WriteStep.failed e => Except.error e
  | WriteStep.wrote k =>
    let n := min k buf.length
    if n = 0 then Except.ok (0, f)
    else Except.ok (n, OsFile.writeChunk f (buf.take n))

/-- The error `std::io::Write::write_all` reports when a write call makes
no progress (ErrorKind::WriteZero). -/
def writeZeroError : IOError := ⟨0⟩

/-- Model of `File::write_all(buf)`: repeatedly calls `write`, retrying
short writes on the unwritten suffix, until the buffer is exhausted or a
call fails. `steps` is the OS's outcome for each successive call; once it
is exhausted, remaining calls succeed in full. -/
def OsFile.writeAll (f : OsFile) (buf : List Byte) (steps : List WriteStep) :
    Except IOError OsFile :=
  if buf = [] then Except.ok f
  else
    match steps with
    | [] => Except.ok (OsFile.writeChunk f buf)
    | WriteStep.failed e :: _ => Except.error e
    | WriteStep.wrote k :: rest =>
      let n := min k buf.length
      if n = 0 then Except.error writeZeroError
      else OsFile.writeAll (OsFile.writeChunk f (buf.take n)) (buf.drop n) rest

/-- Model of a single `File::read` into a buffer of size `n`: the OS either
fails or yields the next `min n remaining` bytes and advances the cursor by
the number of bytes actually read. -/
def OsFile.readStep (f : OsFile) (n : Nat) (failure : Option IOError) :
    Except IOError (List Byte × OsFile) :=
  match failure with
  | some e => Except.error e
  | none =>
    let bytes := (f.contents.drop f.pos).take n
    Except.ok (bytes, { f with pos := f.pos + bytes.length })

/-- The `pos` argument of `Seek::seek`. -/
inductive SeekFrom
  | start (n : Nat)
  | current (ofs : Int)
  | fromEnd (ofs : Int)
deriving DecidableEq, Repr

/-- The OS error for seeking to a negative offset. -/
def seekNegativeError : IOError := ⟨1⟩

/-- Model of a single `File::seek(pos)` call: absolute-from-start,
relative-from-current, or relative-from-end; fails on a negative target
(or when the OS fails outright); returns the new absolute position. -/
def OsFile.seekStep (f : OsFile) (p : SeekFrom) (failure : Option IOError) :
    Except IOError (Nat × OsFile) :=
  match failure with
  | some e => Except.error e
  | none =>
    let target : Int :=
      match p with
      | SeekFrom.start n => (n : Int)
      | SeekFrom.current ofs => (f.pos : Int) + ofs
      | SeekFrom.fromEnd ofs => (f.contents.length : Int) + ofs
    if target < 0 then Except.error seekNegativeError
    else Except.ok (target.toNat, { f with pos := target.toNat })

/-- `pub struct TestTempFile` from src/src/lib.rs: the caller-supplied
`filename`, the drawn `random_number`, the derived `final_filename`, and
the open `file` handle. -/
structure TestTempFile where
  filename : String
  random_number : Int
  final_filename : String
  file : OsFile
deriving DecidableEq, Repr

/-- The identity fields of an entity (everything except the handle). -/
def identityOf (t : TestTempFile) : String × Int × String :=
  (t.filename, t.random_number, t.final_filename)

/-- `impl Write for TestTempFile`: `write` is a pass-through to
`self.file.write(buf)`. -/
def TestTempFile.write (t : TestTempFile) (buf : List Byte) (o : WriteStep) :
    Except IOError (Nat × TestTempFile) :=
  match OsFile.writeStep t.file buf o with
  | Except.error e => Except.error e
  | Except.ok (n, f) => Except.ok (n, { t with file := f })

/-- `impl Write for TestTempFile`: `flush` is a pass-through to
`self.file.flush()`; flushing a `std::fs::File` is a no-op that succeeds. -/
def TestTempFile.flush (t : TestTempFile) : Except IOError TestTempFile :=
  Except.ok t

/-- `impl Write for TestTempFile`: `write_all` is a pass-through to
`self.file.write_all(buf)`. -/
def TestTempFile.write_all (t : TestTempFile) (buf : List Byte)
    (steps : List WriteStep) : Except IOError TestTempFile :=
  match OsFile.writeAll t.file buf steps with
  | Except.error e => Except.error e
  | Except.ok f => Except.ok { t with file := f }

/-- `impl Read for TestTempFile`: `read` is a pass-through to
`self.file.read(buf)`. -/
def TestTempFile.read (t : TestTempFile) (n : Nat) (failure : Option IOError) :
    Except IOError (List Byte × TestTempFile) :=
  match OsFile.readStep t.file n failure with
  | Except.error e => Except.error e
  | Except.ok (bytes, f) => Except.ok (bytes, { t with file := f })

/-- `impl Seek for TestTempFile`: `seek` is a pass-through to
`self.file.seek(pos)`. -/
def TestTempFile.seek (t : TestTempFile) (p : SeekFrom) (failure : Option IOError) :
    Except IOError (Nat × TestTempFile) :=
  match OsFile.seekStep t.file p failure with
  | Except.error e => Except.error e
  | Except.ok (newPos, f) => Except.ok (newPos, { t with file := f })

/-- Model of `OpenOptions::new().create(true).write(true).read(true)
.open(name)`: no truncation, so an existing file keeps its contents; a
missing file is created empty; the cursor starts at 0. A `some e` oracle
models an OS-level open failure (permission denied, invalid path, ...). -/
def openOptionsOpen (fs : FS) (name : String) (failure : Option IOError) :
    Except IOError (OsFile × FS) :=
  match failure with
  | some e => Except.error e
  | none =>
    match FS.lookup fs name with
    | some c => Except.ok ({ contents := c, pos := 0 }, fs)
    | none => Except.ok ({ contents := [], pos := 0 }, FS.insert fs name [])

/-- Outcome of running the constructor: either a built entity together
with the filesystem after the open, or a panic (`unwrap` on `Err`). -/
inductive ConstructResult
  | built (t : TestTempFile) (fs : FS)
  | panicked (e : IOError)
deriving DecidableEq, Repr

/-- `TestTempFile::gen_random_name` from src/src/lib.rs. The drawn value of
`rng.gen_range(0, i32::max_value())` is passed in as `random_number`
(an injectable random source; the call guarantees `0 ≤ r < 2^31 - 1`).
Computes `final_filename = format!("_{}_{}", random_number, filename)`,
opens that path, and `unwrap`s the result: an open failure panics. -/
def gen_random_name (filename : String) (random_number : Int) (fs : FS)
    (openFailure : Option IOError) : ConstructResult :=
  let final_filename := "_" ++ toString random_number ++ "_" ++ filename
  match openOptionsOpen fs final_filename openFailure with
  | Except.error e => ConstructResult.panicked e
  | Except.ok (file, fs') =>
    ConstructResult.built
      { filename := filename, random_number := random_number,
        final_filename := final_filename, file := file } fs'

/-- `TestTempFile::new`: delegates to `gen_random_name`. -/
def TestTempFile.new (filename : String) (random_number : Int) (fs : FS)
    (openFailure : Option IOError) : ConstructResult :=
  gen_random_name filename random_number fs openFailure

/-- Model of `std::fs::remove_file(name)`: on success the entry is removed;
on failure (`some e` oracle) the filesystem is unchanged and an error is
reported to the caller. -/
def remove_file (fs : FS) (name : String) (failure : Option IOError) :
    FS × Except IOError Unit :=
  match failure with
  | some e => (fs, Except.error e)
  | none => (FS.removeEntry fs name, Except.ok ())

/-- `TestTempFile::delete_file` from src/src/lib.rs: if the path exists,
call `remove_file` and DISCARD its result (the `Except` component is
dropped on the floor); otherwise do nothing. It returns only the resulting
filesystem: no error value escapes. -/
def TestTempFile.delete_file (t : TestTempFile) (fs : FS)
    (removeFailure : Option IOError) : FS :=
  if FS.pathExists fs t.final_filename then
    (remove_file fs t.final_filename removeFailure).1
  else fs

/-- Outcome of running a Rust destructor, which in general may panic. -/
inductive DropResult
  | completed (fs : FS)
  | panicked (e : IOError)
deriving DecidableEq, Repr

/-- `impl Drop for TestTempFile`: `drop` calls `self.delete_file()`.
Since `delete_file` discards the `remove_file` result instead of
unwrapping it, the destructor always completes. -/
def TestTempFile.dropEntity (t : TestTempFile) (fs : FS)
    (removeFailure : Option IOError) : DropResult :=
  DropResult.completed (TestTempFile.delete_file t fs removeFailure)

/-! ### Helper lemmas -/

theorem FS.lookup_removeEntry (fs : FS) (name : String) :
    FS.lookup (FS.removeEntry fs name) name = none := by
  induction fs with
  | nil => rfl
  | cons p rest ih =>
    obtain ⟨k, v⟩ := p
    by_cases h : k = name
    · simp [FS.removeEntry, h, ih]
    · simp [FS.removeEntry, FS.lookup, h, ih]

theorem FS.lookup_insert (fs : FS) (name : String) (c : List Byte) :
    FS.lookup (FS.insert fs name c) name = some c := by
  simp [FS.insert, FS.lookup]

theorem padTo_length (c : List Byte) (pos : Nat) :
    (padTo c pos).length = pos := by
  simp [padTo]
  omega

theorem padTo_append_of_length (A B : List Byte) (n : Nat) (hn : A.length = n) :
    padTo (A ++ B) n = A := by
  unfold padTo
  rw [List.take_left' hn]
  have h0 : n - (A ++ B).length = 0 := by simp [hn]
  rw [h0]
  simp

theorem writeBytesAt_split (c : List Byte) (pos : Nat) (buf : List Byte) (k : Nat)
    (hk : k ≤ buf.length) :
    writeBytesAt (writeBytesAt c pos (buf.take k)) (pos + k) (buf.drop k) =
      writeBytesAt c pos buf := by
  have htk : (buf.take k).length = k := by simp [hk]
  have hdk : (buf.drop k).length = buf.length - k := by simp
  simp only [writeBytesAt, htk, hdk]
  rw [padTo_append_of_length (padTo c pos ++ buf.take k) (c.drop (pos + k)) (pos + k)
    (by simp [padTo_length, htk])]
  rw [show pos + k + (buf.length - k) = pos + buf.length by omega]
  rw [List.drop_append_eq_append_drop]
  rw [List.drop_eq_nil_of_le
    (show (padTo c pos ++ buf.take k).length ≤ pos + buf.length by
      simp [padTo_length, htk]; omega)]
  rw [show pos + buf.length - (padTo c pos ++ buf.take k).length = buf.length - k by
    simp [padTo_length, htk]; omega]
  rw [List.drop_drop]
  rw [show pos + k + (buf.length - k) = pos + buf.length by omega]
  rw [List.nil_append]
  rw [List.append_assoc (padTo c pos) (buf.take k) (buf.drop k)]
  rw [List.take_append_drop]

theorem writeChunk_split (f : OsFile) (buf : List Byte) (k : Nat)
    (hk : k ≤ buf.length) :
    OsFile.writeChunk (OsFile.writeChunk f (buf.take k)) (buf.drop k) =
      OsFile.writeChunk f buf := by
  have htk : (buf.take k).length = k := by simp [hk]
  simp only [OsFile.writeChunk, htk]
  rw [writeBytesAt_split f.contents f.pos buf k hk]
  simp
  omega

theorem writeAll_nil_buf (f : OsFile) (steps : List WriteStep) :
    OsFile.writeAll f [] steps = Except.ok f := by
  unfold OsFile.writeAll
  simp

theorem writeAll_steps_nil (f : OsFile) (buf : List Byte) (hb : buf ≠ []) :
    OsFile.writeAll f buf [] = Except.ok (OsFile.writeChunk f buf) := by
  unfold OsFile.writeAll
  simp [hb]

theorem writeAll_cons_failed (f : OsFile) (buf : List Byte) (e : IOError)
    (rest : List WriteStep) (hb : buf ≠ []) :
    OsFile.writeAll f buf (WriteStep.failed e :: rest) = Except.error e := by
  unfold OsFile.writeAll
  simp [hb]

theorem writeAll_cons_wrote (f : OsFile) (buf : List Byte) (k : Nat)
    (rest : List WriteStep) (hb : buf ≠ []) (hk : min k buf.length ≠ 0) :
    OsFile.writeAll f buf (WriteStep.wrote k :: rest) =
      OsFile.writeAll (OsFile.writeChunk f (buf.take (min k buf.length)))
        (buf.drop (min k buf.length)) rest := by
  conv_lhs => rw [OsFile.writeAll.eq_def]
  simp [hb, hk]

theorem writeAll_of_positive_steps (steps : List WriteStep) (buf : List Byte)
    (f : OsFile) (h : steps.all WriteStep.isPositiveWrite = true) :
    OsFile.writeAll f buf steps = OsFile.writeAll f buf [] := by
  induction steps generalizing f buf with
  | nil => rfl
  | cons s rest ih =>
    rw [List.all_cons, Bool.and_eq_true] at h
    obtain ⟨hs, hrest⟩ := h
    by_cases hb : buf = []
    · subst hb
      rw [writeAll_nil_buf, writeAll_nil_buf]
    · cases s with
      | failed e => simp [WriteStep.isPositiveWrite] at hs
      | wrote k =>
        have hk1 : 1 ≤ k := by simpa [WriteStep.isPositiveWrite] using hs
        have hlen : 0 < buf.length := List.length_pos.mpr hb
        have hn0 : min k buf.length ≠ 0 := by omega
        have hnle : min k buf.length ≤ buf.length := Nat.min_le_right _ _
        rw [writeAll_cons_wrote f buf k rest hb hn0]
        rw [ih _ _ hrest]
        by_cases hd : buf.drop (min k buf.length) = []
        · rw [hd, writeAll_nil_buf]
          have hmin : min k buf.length = buf.length := by
            have hle := List.drop_eq_nil_iff.mp hd
            omega
          rw [writeAll_steps_nil _ _ hb, hmin, List.take_length]
        · rw [writeAll_steps_nil _ _ hd, writeAll_steps_nil _ _ hb,
            writeChunk_split f buf (min k buf.length) hnle]

/-! ### Claims -/

/-- C1. Destruction deletes the temporary file: running the `Drop` impl
(which calls `delete_file`) with the OS removal succeeding always
completes, and afterwards the file at `final_filename` no longer exists
on the filesystem — whether or not it existed before. -/
theorem drop_deletes_file (t : TestTempFile) (fs : FS) :
    ∃ fs', TestTempFile.dropEntity t fs none = DropResult.completed fs' ∧
      FS.pathExists fs' t.final_filename = false := by
  refine ⟨TestTempFile.delete_file t fs none, rfl, ?_⟩
  unfold TestTempFile.delete_file
  cases h : FS.pathExists fs t.final_filename
  · simp only [h, Bool.false_eq_true, if_false]
  · simp only [h, if_true]
    simp [remove_file, FS.pathExists, FS.lookup_removeEntry]

/-- C5. Construction failure is fatal: when the OS cannot open/create the
file, `new` (via `gen_random_name`'s `.unwrap()`) panics — terminating
construction — rather than returning an error value or an entity. -/
theorem construction_failure_fatal (n : String) (r : Int) (fs : FS) (e : IOError) :
    TestTempFile.new n r fs (some e) = ConstructResult.panicked e := by
  rfl

/-- C6. Cleanup failures are swallowed: when the OS removal fails during
destruction, the `Drop` impl still completes normally (no panic), the
error is never propagated (the result carries no error value), and the
filesystem is simply left unchanged. -/
theorem cleanup_failures_swallowed (t : TestTempFile) (fs : FS) (e : IOError) :
    TestTempFile.dropEntity t fs (some e) = DropResult.completed fs := by
  unfold TestTempFile.dropEntity TestTempFile.delete_file
  by_cases h : FS.pathExists fs t.final_filename <;> simp [h, remove_file]

/-- C7. Cleanup idempotence: destroying an entity whose physical file is
already absent is a no-op — `delete_file`'s existence check fails, no
removal is attempted, nothing errors, and the filesystem is unchanged,
regardless of what the OS removal oracle would have done. -/
theorem cleanup_idempotent (t : TestTempFile) (fs : FS)
    (removeFailure : Option IOError)
    (h : FS.pathExists fs t.final_filename = false) :
    TestTempFile.dropEntity t fs removeFailure = DropResult.completed fs := by
  unfold TestTempFile.dropEntity TestTempFile.delete_file
  simp [h]

/-- Witness for C7 at a concrete entity and an empty filesystem, with a
failing removal oracle. -/
theorem cleanup_idempotent_witness :
    TestTempFile.dropEntity ⟨"a.txt", 7, "_7_a.txt", ⟨[], 0⟩⟩ [] (some ⟨3⟩) =
      DropResult.completed [] :=
  cleanup_idempotent ⟨"a.txt", 7, "_7_a.txt", ⟨[], 0⟩⟩ [] (some ⟨3⟩) (by decide)

/-- C2. Naming: for every logical name `n` and every value `r` the random
source can return (`gen_range(0, i32::max_value())` guarantees
`0 ≤ r < 2^31 - 1`), construction succeeds and builds an entity whose
`final_filename` is exactly `"_" ++ r ++ "_" ++ n`, whose stored
`random_number` is `r` (hence non-negative), and the file is opened —
and hence exists — under exactly that name. -/
theorem naming (n : String) (r : Int) (fs : FS)
    (h : 0 ≤ r ∧ r < 2147483647) :
    ∃ t fs', TestTempFile.new n r fs none = ConstructResult.built t fs' ∧
      t.final_filename = "_" ++ toString r ++ "_" ++ n ∧
      t.random_number = r ∧ t.filename = n ∧ 0 ≤ t.random_number ∧
      FS.pathExists fs' t.final_filename = true := by
  cases hl : FS.lookup fs ("_" ++ toString r ++ "_" ++ n) with
  | none =>
    refine ⟨⟨n, r, "_" ++ toString r ++ "_" ++ n, ⟨[], 0⟩⟩,
      FS.insert fs ("_" ++ toString r ++ "_" ++ n) [],
      ?_, rfl, rfl, rfl, h.1, ?_⟩
    · simp [TestTempFile.new, gen_random_name, openOptionsOpen, hl]
    · simp [FS.pathExists, FS.lookup_insert]
  | some c =>
    refine ⟨⟨n, r, "_" ++ toString r ++ "_" ++ n, ⟨c, 0⟩⟩, fs,
      ?_, rfl, rfl, rfl, h.1, ?_⟩
    · simp [TestTempFile.new, gen_random_name, openOptionsOpen, hl]
    · simp [FS.pathExists, hl]

/-- Witness for C2 at the logical name "foo.txt" and the drawn value 5. -/
theorem naming_witness :
    ∃ t fs', TestTempFile.new "foo.txt" 5 [] none = ConstructResult.built t fs' ∧
      t.final_filename = "_" ++ toString (5 : Int) ++ "_" ++ "foo.txt" ∧
      t.random_number = 5 ∧ t.filename = "foo.txt" ∧ 0 ≤ t.random_number ∧
      FS.pathExists fs' t.final_filename = true :=
  naming "foo.txt" 5 [] ⟨by decide, by decide⟩

/-- C4. Construction opens with create-if-missing, write and read, and
without truncation: if a file with the generated physical name already
exists with contents `c`, the filesystem is unchanged by construction and
the entity's handle sees exactly `c` with the cursor at position 0. -/
theorem open_preserves_existing (n : String) (r : Int) (fs : FS) (c : List Byte)
    (h : FS.lookup fs ("_" ++ toString r ++ "_" ++ n) = some c) :
    ∃ t, TestTempFile.new n r fs none = ConstructResult.built t fs ∧
      t.file.contents = c ∧ t.file.pos = 0 := by
  refine ⟨⟨n, r, "_" ++ toString r ++ "_" ++ n, ⟨c, 0⟩⟩, ?_, rfl, rfl⟩
  simp [TestTempFile.new, gen_random_name, openOptionsOpen, h]

/-- Witness for C4: a leftover file "_5_a" with contents [1, 2, 3] survives
construction with its contents intact and the cursor at 0. -/
theorem open_preserves_existing_witness :
    ∃ t, TestTempFile.new "a" 5 [("_5_a", [1, 2, 3])] none =
        ConstructResult.built t [("_5_a", [1, 2, 3])] ∧
      t.file.contents = [1, 2, 3] ∧ t.file.pos = 0 :=
  open_preserves_existing "a" 5 [("_5_a", [1, 2, 3])] [1, 2, 3] (by decide)

theorem writeBytesAt_zero (c b : List Byte) :
    writeBytesAt c 0 b = b ++ c.drop b.length := by
  simp [writeBytesAt, padTo]

/-- C3. Round trip: for every byte sequence `b` and every entity whose
cursor is at position 0, `write_all b` (with the OS never interfering)
succeeds, seeking back to the start succeeds at position 0, and reading
`b.length` bytes then yields exactly `b`. -/
theorem round_trip (t : TestTempFile) (b : List Byte) (h : t.file.pos = 0) :
    ∃ t₁ t₂ t₃, TestTempFile.write_all t b [] = Except.ok t₁ ∧
      TestTempFile.seek t₁ (SeekFrom.start 0) none = Except.ok (0, t₂) ∧
      TestTempFile.read t₂ b.length none = Except.ok (b, t₃) := by
  obtain ⟨fn, rn, ffn, c, p⟩ := t
  obtain rfl : p = 0 := h
  by_cases hb : b = []
  · subst hb
    refine ⟨⟨fn, rn, ffn, c, 0⟩, ⟨fn, rn, ffn, c, 0⟩, ⟨fn, rn, ffn, c, 0⟩, ?_, ?_, ?_⟩
    · simp [TestTempFile.write_all, writeAll_nil_buf]
    · simp [TestTempFile.seek, OsFile.seekStep]
    · simp [TestTempFile.read, OsFile.readStep]
  · refine ⟨⟨fn, rn, ffn, b ++ c.drop b.length, b.length⟩,
      ⟨fn, rn, ffn, b ++ c.drop b.length, 0⟩,
      ⟨fn, rn, ffn, b ++ c.drop b.length, b.length⟩, ?_, ?_, ?_⟩
    · simp [TestTempFile.write_all, writeAll_steps_nil _ _ hb, OsFile.writeChunk,
        writeBytesAt_zero]
    · simp [TestTempFile.seek, OsFile.seekStep]
    · simp [TestTempFile.read, OsFile.readStep, List.take_left]

/-- Witness for C3: the example scenario of the spec with the two bytes
[104, 105] on a fresh file. -/
theorem round_trip_witness :
    ∃ t₁ t₂ t₃,
      TestTempFile.write_all ⟨"f", 1, "_1_f", ⟨[], 0⟩⟩ [104, 105] [] = Except.ok t₁ ∧
      TestTempFile.seek t₁ (SeekFrom.start 0) none = Except.ok (0, t₂) ∧
      TestTempFile.read t₂ [104, 105].length none = Except.ok ([104, 105], t₃) :=
  round_trip ⟨"f", 1, "_1_f", ⟨[], 0⟩⟩ [104, 105] rfl

/-- C8. Cursor semantics: after a successful `write_all b` on a fresh
entity (empty file, cursor at 0) the cursor is at position `b.length`, and
any subsequent `read` without an intervening seek returns 0 bytes
(end-of-file), not the bytes just written. -/
theorem cursor_after_write_all (t : TestTempFile) (b : List Byte)
    (h : t.file.contents = [] ∧ t.file.pos = 0) :
    ∃ t', TestTempFile.write_all t b [] = Except.ok t' ∧
      t'.file.pos = b.length ∧
      ∀ n, ∃ t'', TestTempFile.read t' n none = Except.ok ([], t'') := by
  obtain ⟨fn, rn, ffn, c, p⟩ := t
  obtain ⟨rfl, rfl⟩ : c = [] ∧ p = 0 := h
  by_cases hb : b = []
  · subst hb
    refine ⟨⟨fn, rn, ffn, [], 0⟩, ?_, rfl, ?_⟩
    · simp [TestTempFile.write_all, writeAll_nil_buf]
    · intro n
      exact ⟨⟨fn, rn, ffn, [], 0⟩, by simp [TestTempFile.read, OsFile.readStep]⟩
  · refine ⟨⟨fn, rn, ffn, b, b.length⟩, ?_, rfl, ?_⟩
    · simp [TestTempFile.write_all, writeAll_steps_nil _ _ hb, OsFile.writeChunk,
        writeBytesAt_zero]
    · intro n
      exact ⟨⟨fn, rn, ffn, b, b.length⟩, by simp [TestTempFile.read, OsFile.readStep]⟩

/-- Witness for C8 at a fresh entity and the bytes [7, 8]. -/
theorem cursor_after_write_all_witness :
    ∃ t', TestTempFile.write_all ⟨"f", 2, "_2_f", ⟨[], 0⟩⟩ [7, 8] [] = Except.ok t' ∧
      t'.file.pos = [7, 8].length ∧
      ∀ n, ∃ t'', TestTempFile.read t' n none = Except.ok ([], t'') :=
  cursor_after_write_all ⟨"f", 2, "_2_f", ⟨[], 0⟩⟩ [7, 8] ⟨rfl, rfl⟩

/-- C9. Identity invariant: `write`, `flush`, `write_all`, `read` and
`seek` mutate at most the handle (cursor and contents); whenever any of
them succeeds, the identity fields `filename`, `random_number` and
`final_filename` of the resulting entity are unchanged (they are computed
once, in `gen_random_name`, and no operation touches them). -/
theorem identity_invariant (t : TestTempFile) :
    (∀ buf o n t', TestTempFile.write t buf o = Except.ok (n, t') →
      identityOf t' = identityOf t) ∧
    (∀ t', TestTempFile.flush t = Except.ok t' → identityOf t' = identityOf t) ∧
    (∀ buf steps t', TestTempFile.write_all t buf steps = Except.ok t' →
      identityOf t' = identityOf t) ∧
    (∀ n failure bytes t', TestTempFile.read t n failure = Except.ok (bytes, t') →
      identityOf t' = identityOf t) ∧
    (∀ p failure q t', TestTempFile.seek t p failure = Except.ok (q, t') →
      identityOf t' = identityOf t) := by
  refine ⟨?_, ?_, ?_, ?_, ?_⟩
  · intro buf o n t' h
    simp only [TestTempFile.write] at h
    split at h
    · cases h
    · simp only [Except.ok.injEq, Prod.mk.injEq] at h
      obtain ⟨-, rfl⟩ := h
      simp [identityOf]
  · intro t' h
    simp only [TestTempFile.flush, Except.ok.injEq] at h
    subst h
    rfl
  · intro buf steps t' h
    simp only [TestTempFile.write_all] at h
    split at h
    · cases h
    · simp only [Except.ok.injEq] at h
      subst h
      simp [identityOf]
  · intro n failure bytes t' h
    simp only [TestTempFile.read] at h
    split at h
    · cases h
    · simp only [Except.ok.injEq, Prod.mk.injEq] at h
      obtain ⟨-, rfl⟩ := h
      simp [identityOf]
  · intro p failure q t' h
    simp only [TestTempFile.seek] at h
    split at h
    · cases h
    · simp only [Except.ok.injEq, Prod.mk.injEq] at h
      obtain ⟨-, rfl⟩ := h
      simp [identityOf]

/-- Witness for C9: a write of one byte changes the handle but leaves the
identity fields untouched. -/
theorem identity_invariant_witness :
    identityOf ⟨"f", 3, "_3_f", ⟨[9], 1⟩⟩ = identityOf ⟨"f", 3, "_3_f", ⟨[], 0⟩⟩ :=
  (identity_invariant ⟨"f", 3, "_3_f", ⟨[], 0⟩⟩).1 [9] (WriteStep.wrote 1) 1
    ⟨"f", 3, "_3_f", ⟨[9], 1⟩⟩ rfl

/-- C10. I/O error propagation: a failing underlying read, write or seek
call surfaces to the caller as exactly that error — the operation is a
single pass-through call, never retried. The one retrying operation is
`write_all`: while the OS keeps making progress (each call writes at least
one byte) it behaves exactly like an uninterrupted write-to-completion,
and a hard error on a call aborts it with that error. -/
theorem io_error_propagation (t : TestTempFile) (e : IOError) :
    (∀ n, TestTempFile.read t n (some e) = Except.error e) ∧
    (∀ buf, TestTempFile.write t buf (WriteStep.failed e) = Except.error e) ∧
    (∀ p, TestTempFile.seek t p (some e) = Except.error e) ∧
    (∀ buf steps, steps.all WriteStep.isPositiveWrite = true →
      TestTempFile.write_all t buf steps = TestTempFile.write_all t buf []) ∧
    (∀ buf rest, buf ≠ [] →
      TestTempFile.write_all t buf (WriteStep.failed e :: rest) = Except.error e) := by
  refine ⟨?_, ?_, ?_, ?_, ?_⟩
  · intro n
    simp [TestTempFile.read, OsFile.readStep]
  · intro buf
    simp [TestTempFile.write, OsFile.writeStep]
  · intro p
    simp [TestTempFile.seek, OsFile.seekStep]
  · intro buf steps h
    simp [TestTempFile.write_all, writeAll_of_positive_steps steps buf t.file h]
  · intro buf rest hb
    simp [TestTempFile.write_all, writeAll_cons_failed t.file buf e rest hb]

/-- Witness for C10: a failing read propagates its error; a write_all
interrupted by two short writes ends like the uninterrupted one; a hard
write error aborts write_all with that error. -/
theorem io_error_propagation_witness :
    TestTempFile.read ⟨"f", 4, "_4_f", ⟨[5], 0⟩⟩ 1 (some ⟨9⟩) = Except.error ⟨9⟩ ∧
    TestTempFile.write_all ⟨"f", 4, "_4_f", ⟨[], 0⟩⟩ [1, 2, 3]
        [WriteStep.wrote 2, WriteStep.wrote 2] =
      TestTempFile.write_all ⟨"f", 4, "_4_f", ⟨[], 0⟩⟩ [1, 2, 3] [] ∧
    TestTempFile.write_all ⟨"f", 4, "_4_f", ⟨[], 0⟩⟩ [1] [WriteStep.failed ⟨9⟩] =
      Except.error ⟨9⟩ :=
  ⟨(io_error_propagation ⟨"f", 4, "_4_f", ⟨[5], 0⟩⟩ ⟨9⟩).1 1,
   (io_error_propagation ⟨"f", 4, "_4_f", ⟨[], 0⟩⟩ ⟨9⟩).2.2.2.1 [1, 2, 3]
     [WriteStep.wrote 2, WriteStep.wrote 2] (by decide),
   (io_error_propagation ⟨"f", 4, "_4_f", ⟨[], 0⟩⟩ ⟨9⟩).2.2.2.2 [1] [] (by decide)⟩

end TestTempFileLib
